import Mathlib

/-!
Verification of the ETL pipeline (extractor / loader / orchestrator).

Shallow embedding of `src/extractor/database_extractor.py`,
`src/loader/database_loader.py` and `src/etl_pipeline.py`.

Modelling conventions:
* Rows are `List α` (positionally aligned with the column-name list).
* A Python dict `{src: dst}` is modelled as its insertion-ordered list of
  key–value pairs `List (String × String)`; key membership `k in d` is
  `(d.lookup k).isSome`.  Where the distinctness of dict keys matters it is
  stated as a `Nodup` hypothesis.
* Database side effects (connect success, statement execution success,
  per-batch insert failure) are oracles passed as explicit parameters;
  commits and rollback attempts are recorded in the returned outcome.
-/

namespace ETL

/-- Error taxonomy of the spec (§7).  The Python code signals failure by
returning `False`/`None` after logging; each logging site corresponds to one
of these classifications. -/
inductive ETLError where
  | configError
  | connectionError
  | queryError
  | invalidQueryError
  | emptyColumnsError
  | emptyInputError
  | columnCountMismatchError
  | noMappedColumnsError
  | schemaError
  | loadError
deriving DecidableEq, Repr

/-- Characters removed by Python `str.strip()` with no arguments. -/
def pyIsSpace (c : Char) : Bool :=
  c = ' ' || c = '\t' || c = '\n' || c = '\r' || c = '\x0b' || c = '\x0c'

/-- Python `str.strip()` on the character sequence. -/
def pyStrip (l : List Char) : List Char :=
  ((l.dropWhile pyIsSpace).reverse.dropWhile pyIsSpace).reverse

/-- Query classification used in `DatabaseConnector.execute_query` and
`DataExtractor.extract_data`: `query.strip().upper().startswith("SELECT")`. -/
def isReadQuery (q : String) : Bool :=
  "SELECT".toList.isPrefixOf ((pyStrip q.toList).map Char.toUpper)

/-- Outcome of one `DatabaseConnector.execute_query` call: the returned value
(`none` models Python `None`), whether a commit was issued, and whether a
rollback was attempted. -/
structure ExecOutcome (ρ : Type) where
  result : Option (List ρ)
  committed : Bool
  rollbackAttempted : Bool
deriving DecidableEq, Repr

/-- Embedding of `DatabaseConnector.execute_query`.  `connected` models
`self.connection and self.cursor` being set; `execRaises` is the oracle for
"some statement in the `try` block raised"; `rows` is what `fetchall()`
would return for a read query.  All exceptions are caught inside this
function: it returns `none` on error and never propagates the exception. -/
def execute_query (connected : Bool) (query : String) (execRaises : Bool)
    (rows : List ρ) : ExecOutcome ρ :=
  if !connected then ⟨none, false, false⟩
  else if execRaises then ⟨none, false, !isReadQuery query⟩
  else if isReadQuery query then ⟨some rows, false, false⟩
  else ⟨some [], true, false⟩

/-- Python `enumerate` starting at index `k`. -/
def enumerateFrom : Nat → List α → List (Nat × α)
  | _, [] => []
  | k, a :: l => (k, a) :: enumerateFrom (k + 1) l

/-- The loader either keeps the full row (`target_columns`/identity branches)
or keeps only the listed source positions (`column_mapping` branch). -/
inductive RowSelection where
  | full
  | subset (indices : List Nat)
deriving DecidableEq, Repr

/-- Python truthiness of an optional list/dict parameter: `if x:` is true
iff the argument was supplied and is non-empty. -/
def listTruthy : Option (List β) → Bool
  | none => false
  | some l => !l.isEmpty

/-- Column resolution of `DataLoader.load_data` (the
`if column_mapping: / elif target_columns: / else:` chain).  Returns the
destination column names and the row selection, or the resolution error. -/
def resolveColumns (source_columns : List String)
    (target_columns : Option (List String))
    (column_mapping : Option (List (String × String))) :
    Except ETLError (List String × RowSelection) :=
  if listTruthy column_mapping then
    let cm := column_mapping.getD []
    let kept := (enumerateFrom 0 source_columns).filter
      (fun p => (cm.lookup p.2).isSome)
    let dest := kept.filterMap (fun p => cm.lookup p.2)
    if dest.isEmpty then .error .noMappedColumnsError
    else .ok (dest, .subset (kept.map Prod.fst))
  else if listTruthy target_columns then
    let tc := target_columns.getD []
    if tc.length ≠ source_columns.length then .error .columnCountMismatchError
    else .ok (tc, .full)
  else .ok (source_columns, .full)

/-- Embedding of `tuple(row[i] for i in source_indices)`.  The indices produced by
`resolveColumns` are all below `source_columns.length`, so for rows of that
length the lookup never misses. -/
def projectRow (row : List α) (indices : List Nat) : List α :=
  indices.filterMap (fun i => row[i]?)

/-- Embedding of `data_to_insert`: the rows actually handed to the batch loop. -/
def applySelection (data : List (List α)) : RowSelection → List (List α)
  | .full => data
  | .subset indices => data.map (fun row => projectRow row indices)

/-- The slicing loop `for i in range(0, total_rows, batch_size):
batch = data[i:i+batch_size]`, with the list length as fuel.  Only meaningful
for `bs ≥ 1`; `load_data` never calls it with `bs = 0` (Python `range` raises
`ValueError` there, handled separately). -/
def toBatchesAux (bs : Nat) : Nat → List α → List (List α)
  | 0, _ => []
  | _, [] => []
  | fuel + 1, a :: l => ((a :: l).take bs) :: toBatchesAux bs fuel ((a :: l).drop bs)

/-- The batch partition built by `load_data`. -/
def toBatches (bs : Nat) (data : List α) : List (List α) :=
  toBatchesAux bs data.length data

/-- Trace of the batch-insert loop: overall success, the batches for which an
`executemany` was issued, the batches whose transaction committed, and
whether a rollback was attempted. -/
structure BatchRun (ρ : Type) where
  success : Bool
  attempted : List (List ρ)
  committed : List (List ρ)
  rollbackAttempted : Bool
deriving DecidableEq, Repr

/-- The batch loop of `load_data`: batch `k` is inserted and committed unless
the oracle `fails k` says its insert (or commit) raises, in which case the
`except` branch attempts a rollback and the loop is abandoned. -/
def runBatches (fails : Nat → Bool) : Nat → List (List ρ) → BatchRun ρ
  | _, [] => ⟨true, [], [], false⟩
  | k, b :: bs =>
    if fails k then ⟨false, [b], [], true⟩
    else
      let r := runBatches fails (k + 1) bs
      ⟨r.success, b :: r.attempted, b :: r.committed, r.rollbackAttempted⟩

/-- Outcome of one `DataLoader.load_data` call. -/
structure LoadOutcome (α : Type) where
  success : Bool
  errorKind : Option ETLError
  attempted : List (List (List α))
  committed : List (List (List α))
  rollbackAttempted : Bool
deriving DecidableEq, Repr

/-- Embedding of `DataLoader.load_data`.  `connAvail` models "already connected, or the
lazy `connect()` succeeds"; `fails` is the per-batch failure oracle.
`batch_size = 0` models the `ValueError` raised by `range(0, n, 0)`, which
the `except` branch catches (attempting a rollback) before returning
`False`. -/
def load_data (data : List (List α)) (source_columns : List String)
    (target_columns : Option (List String))
    (column_mapping : Option (List (String × String)))
    (batch_size : Nat) (connAvail : Bool) (fails : Nat → Bool) :
    LoadOutcome α :=
  if data.isEmpty || source_columns.isEmpty then
    ⟨false, some .emptyInputError, [], [], false⟩
  else if !connAvail then
    ⟨false, some .connectionError, [], [], false⟩
  else
    match resolveColumns source_columns target_columns column_mapping with
    | .error e => ⟨false, some e, [], [], false⟩
    | .ok (_dest, sel) =>
      let data_to_insert := applySelection data sel
      if batch_size = 0 then
        ⟨false, some .loadError, [], [], true⟩
      else
        let r := runBatches fails 0 (toBatches batch_size data_to_insert)
        ⟨r.success, if r.success then none else some .loadError,
          r.attempted, r.committed, r.rollbackAttempted⟩

/-- The conditional CREATE statement built by
`DataLoader.create_table_if_not_exists`. -/
def createQuery (target_table : String) (defs : List (String × String)) : String :=
  "CREATE TABLE IF NOT EXISTS \"" ++ target_table ++ "\" (" ++
    String.intercalate ", " (defs.map (fun p => "\"" ++ p.1 ++ "\" " ++ p.2)) ++ ")"

/-- The delete-all statement built by `DataLoader.truncate_table`. -/
def truncateQuery (target_table : String) : String :=
  "DELETE FROM \"" ++ target_table ++ "\""

/-- Outcome of a loader DDL helper: the returned boolean and whether the
target connection is open afterwards. -/
structure DDLOutcome where
  success : Bool
  connected : Bool
deriving DecidableEq, Repr

/-- Embedding of `DataLoader.create_table_if_not_exists`.  `connected` is the prior state
of the target connector, `connectOk` the oracle for the lazy `connect()`,
`execRaises` the oracle for a DDL error on the engine.  Note that
`execute_query` catches its own exceptions and returns `None` on error, and
this function discards that return value, so its `except` branch is
unreachable for query errors and it returns `True` regardless of the DDL
outcome. -/
def create_table_if_not_exists (target_table : String)
    (column_definitions : List (String × String))
    (connected connectOk execRaises : Bool) : DDLOutcome :=
  if column_definitions.isEmpty then ⟨false, connected⟩
  else if !connected && !connectOk then ⟨false, false⟩
  else
    let _res : ExecOutcome Unit :=
      execute_query true (createQuery target_table column_definitions) execRaises []
    ⟨true, true⟩

/-- Embedding of `DataLoader.truncate_table`.  Same shape as
`create_table_if_not_exists`: the `execute_query` return value is discarded,
so the function returns `True` regardless of whether the DELETE statement
succeeded on the engine. -/
def truncate_table (target_table : String)
    (connected connectOk execRaises : Bool) : DDLOutcome :=
  if !connected && !connectOk then ⟨false, false⟩
  else
    let _res : ExecOutcome Unit :=
      execute_query true (truncateQuery target_table) execRaises []
    ⟨true, true⟩

/-- Outcome of one `DataExtractor.extract_data` call: the returned boolean,
the connector state afterwards, whether a `connect()` was attempted, whether
a statement was executed, and the extractor's `self.data` / `self.columns`
fields afterwards. -/
structure ExtractResult (ρ : Type) where
  success : Bool
  connected : Bool
  connectAttempted : Bool
  queryExecuted : Bool
  data : Option (List ρ)
  columns : Option (List String)
deriving DecidableEq, Repr

/-- Embedding of `DataExtractor.extract_data`.  `prevData`/`prevCols` are the extractor's
fields before the call; `connected` is the connector's prior state,
`connectOk` the oracle for `connect()`, `execRaises` the oracle for the
statement raising, `rows` what the engine returns, and `colNames` what
`get_column_names` yields (`none` models a `None` cursor description). -/
def extract_data (query : String) (prevData : Option (List ρ))
    (prevCols : Option (List String)) (connected connectOk execRaises : Bool)
    (rows : List ρ) (colNames : Option (List String)) : ExtractResult ρ :=
  if !isReadQuery query then
    ⟨false, connected, false, false, prevData, prevCols⟩
  else if !connected && !connectOk then
    ⟨false, false, true, false, prevData, prevCols⟩
  else
    let r := execute_query true query execRaises rows
    match r.result with
    | none => ⟨false, true, !connected, true, none, prevCols⟩
    | some d =>
      match colNames with
      | none => ⟨false, true, !connected, true, some d, none⟩
      | some cols =>
        if cols.isEmpty then ⟨false, true, !connected, true, some d, some cols⟩
        else ⟨true, true, !connected, true, some d, some cols⟩

/-- Environment of one `ETLPipeline.run` call: the configuration values it
reads and the oracles for every external effect, in the order the run
consumes them. -/
structure RunEnv (ρ : Type) where
  validateOk : Bool
  query : String
  sourceConnectOk : Bool
  extractRaises : Bool
  rows : List (List ρ)
  colNames : Option (List String)
  target_table : String
  target_columns : Option (List String)
  column_mapping : Option (List (String × String))
  create_table : Bool
  hasColumnDefinitions : Bool
  column_definitions : List (String × String)
  targetConnectOk : Bool
  createRaises : Bool
  truncate_before_load : Bool
  truncateRaises : Bool
  batch_size : Nat
  loadFails : Nat → Bool

/-- Result of `ETLPipeline.run`: the returned boolean and whether the source
and target connections are still open when `run` returns. -/
structure RunOutput where
  success : Bool
  sourceOpen : Bool
  targetOpen : Bool
deriving DecidableEq, Repr

/-- Embedding of `ETLPipeline.run`.  Fresh connectors (closed) and a fresh extractor are
built, then: validate, extract, empty-check, optional create-table, optional
truncate, load.  `disconnect()` on both connectors is reached only on the
all-success path; every failure branch returns with the connections in
whatever state they were left. -/
def run (env : RunEnv ρ) : RunOutput :=
  if !env.validateOk then ⟨false, false, false⟩
  else
    let ex := extract_data env.query none none false env.sourceConnectOk
      env.extractRaises env.rows env.colNames
    if !ex.success then ⟨false, ex.connected, false⟩
    else if !listTruthy ex.data || !listTruthy ex.columns then
      ⟨false, ex.connected, false⟩
    else
      let data := ex.data.getD []
      let columns := ex.columns.getD []
      let createStep : DDLOutcome :=
        if env.create_table && env.hasColumnDefinitions then
          create_table_if_not_exists env.target_table env.column_definitions
            false env.targetConnectOk env.createRaises
        else ⟨true, false⟩
      if !createStep.success then ⟨false, ex.connected, createStep.connected⟩
      else
        let truncStep : DDLOutcome :=
          if env.truncate_before_load then
            truncate_table env.target_table createStep.connected
              env.targetConnectOk env.truncateRaises
          else ⟨true, createStep.connected⟩
        if !truncStep.success then ⟨false, ex.connected, truncStep.connected⟩
        else
          let targetAvail := truncStep.connected || env.targetConnectOk
          let lr := load_data data columns env.target_columns
            env.column_mapping env.batch_size targetAvail env.loadFails
          if !lr.success then ⟨false, ex.connected, targetAvail⟩
          else ⟨true, false, false⟩

/-- Modelled from the claim's words (C8): read iff the trimmed text,
case-insensitively, begins with `SELECT` as a whole token — i.e. not
followed by a further identifier character.  Stated only to be compared with
the code's `isReadQuery`. -/
def specIsReadTokenQuery (q : String) : Bool :=
  match (pyStrip q.toList).map Char.toUpper with
  | 'S' :: 'E' :: 'L' :: 'E' :: 'C' :: 'T' :: rest =>
    match rest with
    | [] => true
    | c :: _ => !(c.isAlphanum || c = '_')
  | _ => false

/-- Modelled from the claim's words (C4): the projected row holds the values
at the mapped source positions in mapping-insertion order.  Stated only to
be compared with the code's projection. -/
def specMappedRowInsertionOrder (source_columns : List String)
    (cm : List (String × String)) (row : List α) : List α :=
  cm.filterMap (fun p => (source_columns.indexOf? p.1).bind (fun i => row[i]?))

/-- The claim-C4 amendment's description of one projected row: the values of
the source row whose column name is a key of the mapping, kept in
source-column order. -/
def specMappedRowSourceOrder (source_columns : List String)
    (cm : List (String × String)) (row : List α) : List α :=
  (source_columns.zip row).filterMap
    (fun p => if (cm.lookup p.1).isSome then some p.2 else none)

example : toBatches 2 [1, 2, 3, 4, 5] = [[1, 2], [3, 4], [5]] := by decide

example : isReadQuery "  select * from t" = true := by decide

example : isReadQuery "SELECTED 1" = true := by decide

example : isReadQuery "DELETE FROM t" = false := by decide

example :
    resolveColumns ["id", "nome", "idade"] none (some [("idade", "age")]) =
      .ok (["age"], .subset [2]) := rfl

example :
    resolveColumns ["a", "b"] none (some [("b", "B"), ("a", "A")]) =
      .ok (["A", "B"], .subset [0, 1]) := rfl

example : specIsReadTokenQuery "SELECTED 1" = false := by decide

example : specIsReadTokenQuery "  select * from t" = true := by decide

example : specIsReadTokenQuery "SELECT" = true := by decide

example : specMappedRowInsertionOrder ["a", "b"] [("b", "B"), ("a", "A")] [1, 2] = [2, 1] := by decide

example : specMappedRowSourceOrder ["a", "b"] [("b", "B"), ("a", "A")] [1, 2] = [1, 2] := by decide

example : run (⟨true, "SELECT * FROM c", true, false, [[1]], some ["id"],
  "t", none, none, false, false, [], true, false, false, false, 2,
  fun _ => true⟩ : RunEnv Nat) = ⟨false, true, true⟩ := by decide

example : run (⟨true, "SELECT * FROM c", true, false, [[1]], some ["id"],
  "t", none, none, false, false, [], true, false, false, false, 2,
  fun _ => false⟩ : RunEnv Nat) = ⟨true, false, false⟩ := by decide

example : create_table_if_not_exists "t" [("id", "INTEGER")] true true true = ⟨true, true⟩ := by decide

example : truncate_table "missing" true true true = ⟨true, true⟩ := by decide

/-! ### Lemmas on the batch loop and the batch partition -/

lemma runBatches_firstFail (fails : Nat → Bool) :
    ∀ (bs : List (List ρ)) (k j : Nat), j < bs.length → fails (k + j) = true →
      (∀ i, i < j → fails (k + i) = false) →
      runBatches fails k bs = ⟨false, bs.take (j + 1), bs.take j, true⟩ := by
  intro bs
  induction bs with
  | nil => intro k j hj _ _; simp at hj
  | cons b rest ih =>
    intro k j hj hf hb
    cases j with
    | zero =>
      have hk : fails k = true := by simpa using hf
      simp [runBatches, hk]
    | succ j' =>
      have h0 : fails k = false := by simpa using hb 0 (Nat.succ_pos j')
      have hf' : fails ((k + 1) + j') = true := by
        rw [show (k + 1) + j' = k + (j' + 1) from by omega]; exact hf
      have hb' : ∀ i, i < j' → fails ((k + 1) + i) = false := by
        intro i hi
        rw [show (k + 1) + i = k + (i + 1) from by omega]
        exact hb (i + 1) (by omega)
      have hrec := ih (k + 1) j' (by simpa using hj) hf' hb'
      simp [runBatches, h0, hrec, List.take_succ_cons]

lemma toBatchesAux_join (bs : Nat) (hbs : 0 < bs) :
    ∀ (fuel : Nat) (data : List α), data.length ≤ fuel →
      (toBatchesAux bs fuel data).flatten = data := by
  intro fuel
  induction fuel with
  | zero =>
    intro data h
    have hd : data = [] := List.length_eq_zero.mp (Nat.le_zero.mp h)
    subst hd; rfl
  | succ f ih =>
    intro data h
    match data with
    | [] => rfl
    | a :: l =>
      have hlen : ((a :: l).drop bs).length ≤ f := by
        simp only [List.length_drop, List.length_cons] at *
        omega
      simp only [toBatchesAux, List.flatten_cons, ih _ hlen, List.take_append_drop]

lemma ceil_div_step (n bs : Nat) (hbs : 0 < bs) (hn : 0 < n) :
    (n + bs - 1) / bs = (n - bs + bs - 1) / bs + 1 := by
  rcases Nat.lt_or_ge bs n with h | h
  · have h1 : n + bs - 1 = (n - 1) + bs := by omega
    have h2 : n - bs + bs - 1 = n - 1 := by omega
    rw [h1, h2, Nat.add_div_right _ hbs]
  · have h2 : n - bs = 0 := by omega
    rw [h2]
    have hL : (n + bs - 1) / bs = 1 := by
      apply Nat.div_eq_of_lt_le
      · omega
      · omega
    have hR : (0 + bs - 1) / bs = 0 := Nat.div_eq_of_lt (by omega)
    rw [hL, hR]

lemma toBatchesAux_length (bs : Nat) (hbs : 0 < bs) :
    ∀ (fuel : Nat) (data : List α), data.length ≤ fuel →
      (toBatchesAux bs fuel data).length = (data.length + bs - 1) / bs := by
  intro fuel
  induction fuel with
  | zero =>
    intro data h
    have hd : data = [] := List.length_eq_zero.mp (Nat.le_zero.mp h)
    subst hd
    simp only [toBatchesAux, List.length_nil, Nat.zero_add]
    exact (Nat.div_eq_of_lt (by omega)).symm
  | succ f ih =>
    intro data h
    match data with
    | [] =>
      simp only [toBatchesAux, List.length_nil, Nat.zero_add]
      exact (Nat.div_eq_of_lt (by omega)).symm
    | a :: l =>
      have hlen : ((a :: l).drop bs).length ≤ f := by
        simp only [List.length_drop, List.length_cons] at *
        omega
      have hn : 0 < (a :: l).length := by simp
      simp only [toBatchesAux, List.length_cons, ih _ hlen, List.length_drop]
      exact (ceil_div_step (l.length + 1) bs hbs (by omega)).symm

lemma toBatchesAux_sizes (bs : Nat) (hbs : 0 < bs) :
    ∀ (fuel : Nat) (data : List α), data.length ≤ fuel →
      ∀ b ∈ (toBatchesAux bs fuel data).dropLast, b.length = bs := by
  intro fuel
  induction fuel with
  | zero =>
    intro data h b hb
    have hd : data = [] := List.length_eq_zero.mp (Nat.le_zero.mp h)
    subst hd; simp [toBatchesAux] at hb
  | succ f ih =>
    intro data h b hb
    match data with
    | [] => simp [toBatchesAux] at hb
    | a :: l =>
      simp only [toBatchesAux] at hb
      rcases hdrop : (a :: l).drop bs with _ | ⟨x, xs⟩
      · rw [hdrop] at hb
        have haux : toBatchesAux bs f ([] : List α) = [] := by cases f <;> rfl
        rw [haux] at hb
        simp at hb
      · have hlen : ((a :: l).drop bs).length ≤ f := by
          rw [List.length_drop]
          simp only [List.length_cons] at h ⊢
          omega
        have hne : toBatchesAux bs f ((a :: l).drop bs) ≠ [] := by
          rw [hdrop]
          cases f with
          | zero =>
            exfalso
            rw [hdrop] at hlen
            simp at hlen
          | succ f' => simp [toBatchesAux]
        rw [List.dropLast_cons_of_ne_nil hne] at hb
        rcases List.mem_cons.mp hb with hbeq | hbmem
        · subst hbeq
          have hdnil : ¬((a :: l).drop bs = []) := by rw [hdrop]; simp
          have hble : bs < (a :: l).length := by
            by_contra hcon
            push_neg at hcon
            exact hdnil (List.drop_eq_nil_of_le hcon)
          simp only [List.length_take, List.length_cons]
          simp only [List.length_cons] at hble
          omega
        · exact ih _ hlen b hbmem

/-- C2: the batch partition built by `load_data` is a pure function of the
projected rows and the batch size: it has `ceil(len/batchSize)` batches,
every batch except possibly the last has exactly `batchSize` rows, and the
in-order concatenation of the batches is the original row sequence. -/
theorem batch_partition_pure {α : Type} (rows : List α) (batchSize : Nat)
    (hbs : 0 < batchSize) :
    (toBatches batchSize rows).length = (rows.length + batchSize - 1) / batchSize ∧
    (∀ b ∈ (toBatches batchSize rows).dropLast, b.length = batchSize) ∧
    (toBatches batchSize rows).flatten = rows :=
  ⟨toBatchesAux_length batchSize hbs rows.length rows le_rfl,
   toBatchesAux_sizes batchSize hbs rows.length rows le_rfl,
   toBatchesAux_join batchSize hbs rows.length rows le_rfl⟩

/-- Witness for C2 at `rows = [1,2,3,4,5]`, `batchSize = 2`. -/
theorem batch_partition_pure_witness :
    0 < 2 ∧
    ((toBatches 2 [1, 2, 3, 4, 5]).length = (5 + 2 - 1) / 2 ∧
      (∀ b ∈ (toBatches 2 [1, 2, 3, 4, 5]).dropLast, b.length = 2) ∧
      (toBatches 2 [1, 2, 3, 4, 5]).flatten = [1, 2, 3, 4, 5]) :=
  ⟨by decide, batch_partition_pure [1, 2, 3, 4, 5] 2 (by decide)⟩

/-- C1: when the insert of batch `j` fails (all earlier batches having
succeeded), `load_data` attempts a rollback, issues no insert beyond batch
`j`, returns failure, and the batches committed before `j` remain exactly
the first `j` batches of the partition. -/
theorem load_batch_failure {α : Type} (data : List (List α))
    (source_columns : List String) (target_columns : Option (List String))
    (column_mapping : Option (List (String × String)))
    (batch_size : Nat) (fails : Nat → Bool)
    (dest : List String) (sel : RowSelection) (j : Nat)
    (hd : data ≠ []) (hs : source_columns ≠ [])
    (hres : resolveColumns source_columns target_columns column_mapping =
      .ok (dest, sel))
    (hbs : batch_size ≠ 0)
    (hj : j < (toBatches batch_size (applySelection data sel)).length)
    (hf : fails j = true)
    (hbefore : ∀ i, i < j → fails i = false) :
    load_data data source_columns target_columns column_mapping batch_size
        true fails =
      ⟨false, some .loadError,
        (toBatches batch_size (applySelection data sel)).take (j + 1),
        (toBatches batch_size (applySelection data sel)).take j, true⟩ := by
  have hd' : data.isEmpty = false := by
    cases data with
    | nil => exact absurd rfl hd
    | cons a l => rfl
  have hs' : source_columns.isEmpty = false := by
    cases source_columns with
    | nil => exact absurd rfl hs
    | cons a l => rfl
  have hrb := runBatches_firstFail fails
    (toBatches batch_size (applySelection data sel)) 0 j hj
    (by simpa using hf) (by intro i hi; simpa using hbefore i hi)
  simp only [load_data, hd', hs']
  rw [hres]
  simp [hbs, hrb]

/-- Witness for C1: five one-column rows, batch size 2, the second batch
fails: the first batch (two rows) stays committed, the third is never
attempted. -/
theorem load_batch_failure_witness :
    load_data [[1], [2], [3], [4], [5]] ["a"] none none 2 true
        (fun k => decide (k = 1)) =
      ⟨false, some .loadError, [[[1], [2]], [[3], [4]]], [[[1], [2]]], true⟩ := by
  have h := load_batch_failure [[1], [2], [3], [4], [5]] ["a"] none none 2
    (fun k => decide (k = 1)) ["a"] .full 1 (by decide) (by decide) rfl
    (by decide) (by decide) (by decide) (by decide)
  rw [h]
  rfl

/-! ### Lemmas on column-mapping resolution -/

lemma enumerateFrom_filter_map_snd {α : Type} (P : α → Bool) :
    ∀ (l : List α) (k : Nat),
      ((enumerateFrom k l).filter (fun p => P p.2)).map Prod.snd = l.filter P := by
  intro l
  induction l with
  | nil => intro k; rfl
  | cons c rest ih =>
    intro k
    by_cases hc : P c
    · simp [enumerateFrom, List.filter_cons, hc, ih]
    · simp [enumerateFrom, List.filter_cons, hc, ih]

lemma filterMap_eq_map_getD {β γ : Type} (g : β → Option γ) (d : γ) :
    ∀ (l : List β), (∀ x ∈ l, (g x).isSome) →
      l.filterMap g = l.map (fun x => (g x).getD d) := by
  intro l
  induction l with
  | nil => intro _; rfl
  | cons a rest ih =>
    intro hall
    have ha := hall a (by simp)
    rcases hga : g a with _ | v
    · rw [hga] at ha; simp at ha
    · simp [List.filterMap_cons, hga, ih (fun x hx => hall x (by simp [hx]))]

/-- Normal form of the `column_mapping` branch of `resolveColumns`: kept
columns are the source columns that are mapping keys, in source order, each
renamed through the mapping; the selection indices are their positions; the
branch errors exactly when no source column is a mapping key.  The result
does not depend on `target_columns`. -/
lemma resolveColumns_mapping (sc : List String) (tc : Option (List String))
    (cm : List (String × String)) (hcm : cm ≠ []) :
    resolveColumns sc tc (some cm) =
      (if sc.filter (fun c => (cm.lookup c).isSome) = []
       then .error .noMappedColumnsError
       else .ok ((sc.filter (fun c => (cm.lookup c).isSome)).map
                   (fun c => (cm.lookup c).getD ""),
                 .subset (((enumerateFrom 0 sc).filter
                   (fun p => (cm.lookup p.2).isSome)).map Prod.fst))) := by
  have htr : listTruthy (some cm) = true := by
    cases cm with
    | nil => exact absurd rfl hcm
    | cons a l => rfl
  have hkeep : ∀ p ∈ (enumerateFrom 0 sc).filter
      (fun p : Nat × String => (cm.lookup p.2).isSome),
      ((fun p : Nat × String => cm.lookup p.2) p).isSome := by
    intro p hp
    exact (List.mem_filter.mp hp).2
  have hdest : ((enumerateFrom 0 sc).filter
        (fun p => (cm.lookup p.2).isSome)).filterMap (fun p => cm.lookup p.2)
      = (sc.filter (fun c => (cm.lookup c).isSome)).map
          (fun c => (cm.lookup c).getD "") := by
    rw [filterMap_eq_map_getD (fun p : Nat × String => cm.lookup p.2) "" _ hkeep]
    rw [← enumerateFrom_filter_map_snd (fun c : String => (cm.lookup c).isSome) sc 0]
    rw [List.map_map]
    rfl
  simp only [resolveColumns, htr, if_true, Option.getD_some, hdest]
  by_cases hfil : sc.filter (fun c => (cm.lookup c).isSome) = []
  · simp [hfil]
  · have hmap : ((sc.filter (fun c => (cm.lookup c).isSome)).map
        (fun c => (cm.lookup c).getD "")).isEmpty = false := by
      rcases hf : sc.filter (fun c => (cm.lookup c).isSome) with _ | ⟨x, xs⟩
      · exact absurd hf hfil
      · simp
    simp [hmap, hfil]

lemma load_data_errorKind_ok {α : Type} (data : List (List α)) (sc : List String)
    (tc : Option (List String)) (cm : Option (List (String × String)))
    (batch_size : Nat) (fails : Nat → Bool) (dest : List String)
    (sel : RowSelection) (hd' : data.isEmpty = false) (hs' : sc.isEmpty = false)
    (hres : resolveColumns sc tc cm = .ok (dest, sel)) :
    (load_data data sc tc cm batch_size true fails).errorKind = none ∨
    (load_data data sc tc cm batch_size true fails).errorKind
      = some .loadError := by
  simp only [load_data, hd', hs']
  rw [hres]
  by_cases hbz : batch_size = 0
  · simp [hbz]
  · by_cases hsuc : (runBatches fails 0 (toBatches batch_size
        (applySelection data sel))).success
    · simp [hbz, hsuc]
    · simp only [Bool.not_eq_true] at hsuc
      simp [hbz, hsuc]

/-- C3: with a non-empty `columnMapping`, exactly the source columns that
are mapping keys are kept (renamed through the mapping, in source order);
the call fails with the no-mapped-columns error iff no source column is a
mapping key; and `columnMapping` takes precedence over `targetColumns` (the
result does not depend on the latter). -/
theorem mapping_resolution_spec {α : Type} (data : List (List α))
    (sc : List String) (tc tc' : Option (List String))
    (cm : List (String × String)) (batch_size : Nat) (fails : Nat → Bool)
    (hcm : cm ≠ []) (hd : data ≠ []) (hs : sc ≠ []) :
    ((load_data data sc tc (some cm) batch_size true fails).errorKind
        = some .noMappedColumnsError
      ↔ sc.filter (fun c => (cm.lookup c).isSome) = []) ∧
    (∀ dest sel, resolveColumns sc tc (some cm) = .ok (dest, sel) →
      dest = (sc.filter (fun c => (cm.lookup c).isSome)).map
        (fun c => (cm.lookup c).getD "")) ∧
    load_data data sc tc (some cm) batch_size true fails
      = load_data data sc tc' (some cm) batch_size true fails := by
  have hd' : data.isEmpty = false := by
    cases data with
    | nil => exact absurd rfl hd
    | cons a l => rfl
  have hs' : sc.isEmpty = false := by
    cases sc with
    | nil => exact absurd rfl hs
    | cons a l => rfl
  refine ⟨?_, ?_, ?_⟩
  · constructor
    · intro hko
      by_contra hfil
      have hres : resolveColumns sc tc (some cm)
          = .ok ((sc.filter (fun c => (cm.lookup c).isSome)).map
              (fun c => (cm.lookup c).getD ""),
            .subset (((enumerateFrom 0 sc).filter
              (fun p => (cm.lookup p.2).isSome)).map Prod.fst)) := by
        rw [resolveColumns_mapping sc tc cm hcm, if_neg hfil]
      rcases load_data_errorKind_ok data sc tc (some cm) batch_size fails _ _
          hd' hs' hres with h | h
      · rw [h] at hko; simp at hko
      · rw [h] at hko; simp at hko
    · intro hfil
      have hres : resolveColumns sc tc (some cm)
          = .error .noMappedColumnsError := by
        rw [resolveColumns_mapping sc tc cm hcm, if_pos hfil]
      simp [load_data, hd', hs', hres]
  · intro dest sel hok
    rw [resolveColumns_mapping sc tc cm hcm] at hok
    by_cases hfil : sc.filter (fun c => (cm.lookup c).isSome) = []
    · rw [if_pos hfil] at hok
      simp at hok
    · rw [if_neg hfil] at hok
      injection hok with h1
      injection h1 with h2 h3
      exact h2.symm
  · simp only [load_data, hd', hs']
    rw [resolveColumns_mapping sc tc cm hcm, resolveColumns_mapping sc tc' cm hcm]

/-- Witness for C3 at `sourceColumns = ["a","b"]`,
`columnMapping = [("b","B")]`. -/
theorem mapping_resolution_spec_witness :
    ((load_data [[1, 2]] ["a", "b"] (some ["x"]) (some [("b", "B")]) 1 true
          (fun _ => false)).errorKind = some .noMappedColumnsError
      ↔ ["a", "b"].filter (fun c => ([("b", "B")].lookup c).isSome) = []) ∧
    (∀ dest sel, resolveColumns ["a", "b"] (some ["x"]) (some [("b", "B")])
        = .ok (dest, sel) →
      dest = (["a", "b"].filter (fun c => ([("b", "B")].lookup c).isSome)).map
        (fun c => ([("b", "B")].lookup c).getD "")) ∧
    load_data [[1, 2]] ["a", "b"] (some ["x"]) (some [("b", "B")]) 1 true
        (fun _ => false)
      = load_data [[1, 2]] ["a", "b"] none (some [("b", "B")]) 1 true
          (fun _ => false) :=
  mapping_resolution_spec [[1, 2]] ["a", "b"] (some ["x"]) none [("b", "B")] 1
    (fun _ => false) (by decide) (by decide) (by decide)

/-! ### Lemmas on row projection under a column mapping -/

lemma projectRow_cons_some {α : Type} (l : List α) (i : Nat) (idx : List Nat)
    (v : α) (h : l[i]? = some v) :
    projectRow l (i :: idx) = v :: projectRow l idx := by
  simp [projectRow, List.filterMap_cons, h]

lemma specMappedRowSourceOrder_cons_pos {α : Type} (cm : List (String × String))
    (c : String) (rest : List String) (v : α) (row' : List α)
    (hc : (cm.lookup c).isSome = true) :
    specMappedRowSourceOrder (c :: rest) cm (v :: row')
      = v :: specMappedRowSourceOrder rest cm row' := by
  simp [specMappedRowSourceOrder, List.filterMap_cons, hc]

lemma specMappedRowSourceOrder_cons_neg {α : Type} (cm : List (String × String))
    (c : String) (rest : List String) (v : α) (row' : List α)
    (hc : (cm.lookup c).isSome = false) :
    specMappedRowSourceOrder (c :: rest) cm (v :: row')
      = specMappedRowSourceOrder rest cm row' := by
  simp [specMappedRowSourceOrder, List.filterMap_cons, hc]

/-- The code's projection through the indices built by `enumerate` + filter
equals, for rows aligned with the column list, the subsequence of row values
whose column is a mapping key, in source-column order. -/
lemma projectRow_mapped {α : Type} (cm : List (String × String)) :
    ∀ (sc : List String) (row full : List α), row.length = sc.length →
      projectRow (full ++ row)
        (((enumerateFrom full.length sc).filter
          (fun p => (cm.lookup p.2).isSome)).map Prod.fst)
      = specMappedRowSourceOrder sc cm row := by
  intro sc
  induction sc with
  | nil =>
    intro row full hlen
    have hrow : row = [] := List.length_eq_zero.mp (by simpa using hlen)
    subst hrow; rfl
  | cons c rest ih =>
    intro row full hlen
    match row with
    | [] => simp at hlen
    | v :: row' =>
      have hlen' : row'.length = rest.length := by simpa using hlen
      have hidx : (full ++ v :: row')[full.length]? = some v := by
        rw [List.getElem?_append_right (Nat.le_refl full.length)]
        simp
      have hih := ih row' (full ++ [v]) hlen'
      rw [show (full ++ [v]).length = full.length + 1 by simp] at hih
      rw [show (full ++ [v]) ++ row' = full ++ v :: row' by simp] at hih
      cases hc : (cm.lookup c).isSome with
      | true =>
        rw [specMappedRowSourceOrder_cons_pos cm c rest v row' hc]
        have hfe : ((enumerateFrom full.length (c :: rest)).filter
            (fun p => (cm.lookup p.2).isSome)).map Prod.fst
            = full.length :: ((enumerateFrom (full.length + 1) rest).filter
              (fun p => (cm.lookup p.2).isSome)).map Prod.fst := by
          simp [enumerateFrom, List.filter_cons, hc]
        rw [hfe, projectRow_cons_some _ _ _ _ hidx, hih]
      | false =>
        rw [specMappedRowSourceOrder_cons_neg cm c rest v row' hc]
        have hfe : ((enumerateFrom full.length (c :: rest)).filter
            (fun p => (cm.lookup p.2).isSome)).map Prod.fst
            = ((enumerateFrom (full.length + 1) rest).filter
              (fun p => (cm.lookup p.2).isSome)).map Prod.fst := by
          simp [enumerateFrom, List.filter_cons, hc]
        rw [hfe, hih]

/-- C4 (amended): for a column mapping, each projected row holds exactly the
values at the mapped source positions, in source-column order, and the
projection never drops whole rows. -/
theorem mapped_projection_source_order {α : Type} (data : List (List α))
    (sc : List String) (cm : List (String × String))
    (dest : List String) (idx : List Nat)
    (hres : resolveColumns sc none (some cm) = .ok (dest, .subset idx)) :
    (applySelection data (.subset idx)).length = data.length ∧
    ∀ row ∈ data, row.length = sc.length →
      projectRow row idx = specMappedRowSourceOrder sc cm row := by
  have hidx : idx = ((enumerateFrom 0 sc).filter
      (fun p => (cm.lookup p.2).isSome)).map Prod.fst := by
    by_cases hcm : cm = []
    · subst hcm
      simp [resolveColumns, listTruthy] at hres
    · rw [resolveColumns_mapping sc none cm hcm] at hres
      by_cases hfil : sc.filter (fun c => (cm.lookup c).isSome) = []
      · rw [if_pos hfil] at hres
        simp at hres
      · rw [if_neg hfil] at hres
        injection hres with h1
        injection h1 with h2 h3
        injection h3 with h4
        exact h4.symm
  subst hidx
  constructor
  · simp [applySelection]
  · intro row hrow hlen
    have h := projectRow_mapped cm sc row [] hlen
    simpa using h

/-- Witness for the amended C4 at `sourceColumns = ["a","b","c"]`,
`columnMapping = [("c","Z"),("a","X")]`. -/
theorem mapped_projection_source_order_witness :
    ((applySelection [[(1 : Nat), 2, 3]] (.subset [0, 2])).length
        = [[(1 : Nat), 2, 3]].length) ∧
    (∀ row ∈ [[(1 : Nat), 2, 3]], row.length = ["a", "b", "c"].length →
      projectRow row [0, 2]
        = specMappedRowSourceOrder ["a", "b", "c"] [("c", "Z"), ("a", "X")] row) :=
  mapped_projection_source_order [[(1 : Nat), 2, 3]] ["a", "b", "c"]
    [("c", "Z"), ("a", "X")] ["X", "Z"] [0, 2] rfl

/-- C4 counterexample: with insertion order `b` before `a` over source
columns `["a","b"]`, the code projects in source order (`[1, 2]`), not in
mapping-insertion order (`[2, 1]`). -/
theorem mapped_projection_not_insertion_order :
    resolveColumns ["a", "b"] none (some [("b", "B"), ("a", "A")])
        = .ok (["A", "B"], .subset [0, 1]) ∧
    applySelection [[(1 : Nat), 2]] (.subset [0, 1]) = [[1, 2]] ∧
    specMappedRowInsertionOrder ["a", "b"] [("b", "B"), ("a", "A")]
        [(1 : Nat), 2] = [2, 1] ∧
    ([(1 : Nat), 2] : List Nat) ≠ [2, 1] :=
  ⟨rfl, by decide, by decide, by decide⟩

/-! ### Theorems on the connector, the extractor and the orchestrator -/

/-- C5 (code bug): a run in which validation, connection, extraction and
every pre-step succeed but the first insert batch fails returns failure with
BOTH connections still open — no failure path of `run` reaches
`disconnect()`.  The second conjunct shows the all-success run does close
both. -/
theorem run_leaves_connections_open_on_failure :
    run (⟨true, "SELECT * FROM clientes", true, false, [[(1 : Nat)]],
        some ["id"], "t", none, none, false, false, [], true, false, false,
        false, 100, fun _ => true⟩ : RunEnv Nat) = ⟨false, true, true⟩ ∧
    run (⟨true, "SELECT * FROM clientes", true, false, [[(1 : Nat)]],
        some ["id"], "t", none, none, false, false, [], true, false, false,
        false, 100, fun _ => false⟩ : RunEnv Nat) = ⟨true, false, false⟩ :=
  ⟨by decide, by decide⟩

/-- C6 (code bug): a DDL error on the engine is swallowed by
`execute_query` (which returns `None` after catching the exception, second
conjunct), and `create_table_if_not_exists` ignores that return value and
reports success anyway. -/
theorem create_table_ignores_ddl_error :
    create_table_if_not_exists "t" [("id", "INTEGER")] true true true
        = ⟨true, true⟩ ∧
    (execute_query true (createQuery "t" [("id", "INTEGER")]) true
        ([] : List Nat)).result = none :=
  ⟨by decide, by decide⟩

/-- C7 (code bug): when the delete-all statement fails on the engine (e.g.
the table does not exist), `execute_query` returns `None` (second conjunct),
and `truncate_table` ignores that return value and reports success anyway. -/
theorem truncate_ignores_missing_table :
    truncate_table "missing" true true true = ⟨true, true⟩ ∧
    (execute_query true (truncateQuery "missing") true
        ([] : List Nat)).result = none :=
  ⟨by decide, by decide⟩

/-- C8 (amended): a statement is classified read iff its trimmed text,
case-insensitively, begins with the characters `SELECT` (a prefix check);
every other statement is mutating: committed exactly when execution
succeeds, rollback attempted exactly when it raises, rows returned only for
read queries. -/
theorem read_classification_behavior {ρ : Type} (q : String) (execRaises : Bool)
    (rows : List ρ) :
    (execute_query true q execRaises rows).committed
        = (!execRaises && !isReadQuery q) ∧
    (execute_query true q execRaises rows).rollbackAttempted
        = (execRaises && !isReadQuery q) ∧
    (execute_query true q execRaises rows).result
        = (if execRaises then none
           else if isReadQuery q then some rows else some []) := by
  cases execRaises <;> cases hq : isReadQuery q <;> simp [execute_query, hq]

/-- C8 counterexample: `"SELECTED 1"` does not begin with the token
`SELECT` (it is a longer word with `SELECT` as a prefix), yet the code
classifies it as a read query and accordingly does not commit it. -/
theorem read_classification_prefix_not_token :
    isReadQuery "SELECTED 1" = true ∧
    specIsReadTokenQuery "SELECTED 1" = false ∧
    (execute_query true "SELECTED 1" false ([] : List Nat)).committed
        = false :=
  ⟨by decide, by decide, by decide⟩

/-- C9: a query that does not classify as a read query makes `extract_data`
return failure immediately: no connect is attempted, no statement is
executed, and the connector and extractor state are left unchanged. -/
theorem extract_rejects_nonread {ρ : Type} (q : String)
    (prevData : Option (List ρ)) (prevCols : Option (List String))
    (connected connectOk execRaises : Bool) (rows : List ρ)
    (colNames : Option (List String)) (h : isReadQuery q = false) :
    extract_data q prevData prevCols connected connectOk execRaises rows
        colNames = ⟨false, connected, false, false, prevData, prevCols⟩ := by
  simp [extract_data, h]

/-- Witness for C9 at the mutating statement `"DELETE FROM clientes"`. -/
theorem extract_rejects_nonread_witness :
    isReadQuery "DELETE FROM clientes" = false ∧
    extract_data "DELETE FROM clientes" (none : Option (List Nat)) none false
        true false [] none = ⟨false, false, false, false, none, none⟩ :=
  ⟨by decide,
   extract_rejects_nonread "DELETE FROM clientes" none none false true false
     [] none (by decide)⟩

/-- C10: an empty `column_mapping` dict is falsy in Python, so `load_data`
behaves exactly as if `column_mapping` were absent — resolution falls
through to `target_columns` or identity, and the no-mapped-columns error
cannot arise. -/
theorem empty_mapping_falls_through {α : Type} (data : List (List α))
    (sc : List String) (tc : Option (List String)) (batch_size : Nat)
    (connAvail : Bool) (fails : Nat → Bool) :
    resolveColumns sc tc (some []) = resolveColumns sc tc none ∧
    load_data data sc tc (some []) batch_size connAvail fails
      = load_data data sc tc none batch_size connAvail fails ∧
    resolveColumns sc tc (some []) ≠ .error .noMappedColumnsError := by
  refine ⟨rfl, rfl, ?_⟩
  intro hcontra
  rcases tc with _ | tcl
  · exact absurd hcontra (by simp [resolveColumns, listTruthy])
  · by_cases ht : tcl.isEmpty
    · have hr : resolveColumns sc (some tcl) (some []) = .ok (sc, .full) := by
        simp [resolveColumns, listTruthy, ht]
      rw [hr] at hcontra
      exact Except.noConfusion hcontra
    · by_cases hlen : tcl.length = sc.length
      · have hr : resolveColumns sc (some tcl) (some []) = .ok (tcl, .full) := by
          simp [resolveColumns, listTruthy, ht, hlen]
        rw [hr] at hcontra
        exact Except.noConfusion hcontra
      · have hr : resolveColumns sc (some tcl) (some [])
            = .error .columnCountMismatchError := by
          simp [resolveColumns, listTruthy, ht, hlen]
        rw [hr] at hcontra
        have hne := Except.error.inj hcontra
        exact ETLError.noConfusion hne

end ETL
